import Mathlib

/-!
Shallow embedding of the Backseat test-runner (`src/main.rs`).

The runner discovers test files, parses an expectation directive from each
file's first line (`determine_expected_outcome`), runs a two-stage pipeline
(Seatbelt compiler, then the Backseater virtual machine fed the compiler's
standard output), evaluates the observed outcome against the expectation
(`validate_error_messages` and the branches of `main`), and aggregates
pass/fail counts into a summary line and a process exit status.

Modelling conventions:
* Rust `String`/`str` values are Lean `String`s; the character-level
  operations the code performs (`split`, `trim`, `starts_with`,
  `strip_prefix`, `strip_suffix`, `contains`) are embedded as structurally
  recursive functions on `List Char` so that every definition evaluates by
  kernel reduction.  Rust's `trim` strips Unicode whitespace; the embedding
  uses `Char.isWhitespace`, which agrees on all inputs appearing here.
* Captured standard-error bytes are modelled as the text they decode to
  (`String`); `String::from_utf8` / `from_utf8_lossy` are the identity on
  valid UTF-8, which is the only case the claims speak about.  Captured
  standard-output bytes are `List Nat`.
* The slice indexing `error_messages[0]` in `validate_error_messages` would
  panic on an empty slice; the embedding returns `none` for that (in the
  code unreachable) situation, so the function's type is
  `Option (Except String Unit)`.
* A per-test `anyhow` error escapes the rayon closure and hits
  `Err(_) => panic!()` in the `for_each` aggregation, killing the whole
  run; `run_all` models that abort as `none`.
-/

namespace TestRunner

/-- One comma/equals/newline-separated split, embedding Rust `str::split`
with a single-character pattern.  Like Rust's iterator it always yields at
least one (possibly empty) piece. -/
def splitOnChar (c : Char) : List Char → List (List Char)
  | [] => [[]]
  | x :: xs =>
    match splitOnChar c xs with
    | r :: rs => if x = c then [] :: r :: rs else (x :: r) :: rs
    | [] => if x = c then [[]] else [[x]]

/-- Embedding of Rust `str::trim`: strip whitespace from both ends. -/
def trimChars (l : List Char) : List Char :=
  ((l.dropWhile Char.isWhitespace).reverse.dropWhile Char.isWhitespace).reverse

/-- `trim` on `String`s (used for the `got:` part of the mismatch
diagnostic, `stderr_string.trim()` in the source). -/
def trimS (s : String) : String := ⟨trimChars s.data⟩

/-- Embedding of Rust `str::contains` with a string pattern: substring
(infix) containment. -/
def strContains (s m : String) : Bool := decide (m.data <:+: s.data)

/-- `TestOutcome` from the source: the expectation parsed from a test
file's first line. -/
inductive TestOutcome where
  | Finished : TestOutcome
  | Aborted (error_messages : List String) : TestOutcome
deriving DecidableEq

/-- `TestResultKind` from the source: Pass, or Fail with a diagnostic. -/
inductive TestResultKind where
  | Success : TestResultKind
  | Failure (error_message : String) : TestResultKind
deriving DecidableEq

/-- `std::process::Output` as the runner consumes it: exit-status success
flag, captured standard-output bytes, captured standard-error text. -/
structure Output where
  status_success : Bool
  stdout : List Nat
  stderr : String

/-- Embedding of Rust `str::strip_suffix('"')`: remove a trailing double
quote, or fail. -/
def chopQuoteBack (l : List Char) : Option (List Char) :=
  match l.reverse with
  | c :: rest => if c = '"' then some rest.reverse else none
  | [] => none

/-- One iteration of the message-parsing loop in
`determine_expected_outcome`: the piece is trimmed, then must lose a
leading double quote (`strip_prefix('"')`, else a parse error) and then a
trailing double quote (`strip_suffix('"')`, else a parse error). -/
def parseOneMessage (message : List Char) : Except String (List Char) :=
  match trimChars message with
  | c :: t1 =>
    if c = '"' then
      match chopQuoteBack t1 with
      | some body => .ok body
      | none => .error "\" suffix not found"
    else .error "\" prefix not found"
  | [] => .error "\" prefix not found"

/-- The message-parsing loop of `determine_expected_outcome` over all
comma-separated pieces; the first malformed piece aborts with its parse
error. -/
def parseMessages : List (List Char) → Except String (List String)
  | [] => .ok []
  | message :: rest =>
    match parseOneMessage message with
    | .ok body =>
      match parseMessages rest with
      | .ok ms => .ok (⟨body⟩ :: ms)
      | .error e => .error e
    | .error e => .error e

/-- The source's local `first_line`: text before the first newline,
trimmed. -/
def first_line_of (input_file : String) : List Char :=
  trimChars ((splitOnChar '\n' input_file.data).headD [])

/-- The source's local `test_runner_command`: the first line with the
leading `//` stripped, trimmed. -/
def test_runner_command_of (input_file : String) : List Char :=
  trimChars ((first_line_of input_file).drop 2)

/-- `determine_expected_outcome` from the source, on the test file's
text. -/
def determine_expected_outcome (input_file : String) : Except String TestOutcome :=
  if ("//".data).isPrefixOf (first_line_of input_file) then
    match splitOnChar '=' (test_runner_command_of input_file) with
    | lhs :: rhs :: _ =>
      if trimChars lhs = "fails_with".data then
        match parseMessages (splitOnChar ',' (trimChars rhs)) with
        | .ok message_vector => .ok (.Aborted message_vector)
        | .error e => .error e
      else .ok .Finished
    | _ => .ok .Finished
  else .ok .Finished

/-- The diagnostic `validate_error_messages` builds when some expected
message is missing from the captured standard error. -/
def mismatchDiagnostic (stderr_string m0 : String) (rest : List String) : String :=
  (rest.foldl (fun acc m => acc ++ "\t          and \"" ++ m ++ "\"")
      ("\ttest aborted as expected, but with wrong error message:\n\texpected: \"" ++ m0 ++ "\""))
    ++ "\t     got: \"" ++ trimS stderr_string ++ "\""

/-- `validate_error_messages` from the source: `Ok` when the captured
standard-error text contains every expected message as a substring,
otherwise the mismatch diagnostic.  `none` models the slice-index panic
`error_messages[0]` on an empty slice (unreachable: an empty slice passes
the `all` check). -/
def validate_error_messages (stderr_string : String) (error_messages : List String) :
    Option (Except String Unit) :=
  if error_messages.all (fun message => strContains stderr_string message) then
    some (.ok ())
  else
    match error_messages with
    | [] => none
    | m0 :: rest => some (.error (mismatchDiagnostic stderr_string m0 rest))

/-- The diagnostic `main` builds when the pipeline fully succeeded although
error messages were expected. -/
def finishedDiagnostic (error_messages : List String) : String :=
  error_messages.foldl (fun acc m => acc ++ "\t\t\"" ++ m ++ "\"")
    "\ttest execution finished, but the following error messages were expected:"

/-- The shared shape of `main`'s two failing-stage branches: with a
`fails_with` expectation the stage's standard error is validated, otherwise
the raw standard-error text becomes the diagnostic. -/
def evaluate_on_failure (stderr_string : String) (expected_outcome : TestOutcome) :
    Option TestResultKind :=
  match expected_outcome with
  | .Aborted error_messages =>
    match validate_error_messages stderr_string error_messages with
    | some (.ok _) => some .Success
    | some (.error e) => some (.Failure e)
    | none => none
  | .Finished => some (.Failure stderr_string)

/-- The per-test body of `main`: run the compiler; on success pipe its
standard output into the Backseater and evaluate that stage; on failure
evaluate the compiler stage; never start the second stage after the first
failed.  `backseater_of` gives the virtual machine's behaviour as a
function of the bytes piped into it. -/
def run_test (expected_outcome : TestOutcome) (command_result : Output)
    (backseater_of : List Nat → Output) : Option TestResultKind :=
  if command_result.status_success then
    let backseater_result := backseater_of command_result.stdout
    if backseater_result.status_success then
      match expected_outcome with
      | .Aborted error_messages => some (.Failure (finishedDiagnostic error_messages))
      | .Finished => some .Success
    else evaluate_on_failure backseater_result.stderr expected_outcome
  else evaluate_on_failure command_result.stderr expected_outcome

/-- One discovered test case together with the behaviour of the external
stages on it: the file's text, the compiler's `Output`, and the virtual
machine's `Output` as a function of the piped-in compiler stdout. -/
structure TestSpec where
  content : String
  command_result : Output
  backseater_of : List Nat → Output

/-- The whole per-test closure of `main`: parse the directive (a parse
error escapes as `Except.error`, the `?` operator in the source), then run
and evaluate the pipeline. -/
def run_one (t : TestSpec) : Except String (Option TestResultKind) :=
  match determine_expected_outcome t.content with
  | .error e => .error e
  | .ok expected_outcome => .ok (run_test expected_outcome t.command_result t.backseater_of)

/-- One step of the `for_each` aggregation: count the test as run, count a
`Failure` as failed; an `Err` hits `panic!()` (the whole run aborts,
modelled `none`), as does the unreachable slice-index panic. -/
def runStep (acc : Option (Nat × Nat)) (t : TestSpec) : Option (Nat × Nat) :=
  match acc with
  | none => none
  | some (r, f) =>
    match run_one t with
    | .error _ => none
    | .ok none => none
    | .ok (some .Success) => some (r + 1, f)
    | .ok (some (.Failure _)) => some (r + 1, f + 1)

/-- The aggregation over all discovered tests: final
`(tests_run, tests_failed)` counters, or `none` when the run aborted. -/
def run_all (tests : List TestSpec) : Option (Nat × Nat) :=
  tests.foldl runStep (some (0, 0))

/-- The literal summary line `main` prints. -/
def summaryLine (tests_run tests_failed : Nat) : String :=
  "Tests run: " ++ toString tests_run ++ ", Tests successful: "
    ++ toString (tests_run - tests_failed) ++ ", Tests failed: "
    ++ toString tests_failed ++ "\n"

/-- The observable end of `main`: counters, the printed summary line, and
whether the process exits successfully (`tests_failed == 0`). -/
def run_harness (tests : List TestSpec) : Option (Nat × Nat × String × Bool) :=
  match run_all tests with
  | none => none
  | some (r, f) => some (r, f, summaryLine r f, f == 0)

/-- Whether a test case's result counts as failed (used to state the
aggregate invariants). -/
def counts_as_failed (t : TestSpec) : Bool :=
  match run_one t with
  | .ok (some (.Failure _)) => true
  | _ => false

/-- A comma-separated piece (after trimming) is properly quoted: it starts
with `"` and what remains ends with `"`. -/
def properlyQuoted (t : List Char) : Bool :=
  match t with
  | c :: t1 => c = '"' && (chopQuoteBack t1).isSome
  | [] => false

/-- The text of a properly quoted piece: drop the surrounding quotes. -/
def unquoteMsg (t : List Char) : List Char := (t.drop 1).dropLast

/-- Helper for `specIndentedStderr`: follow every newline with an
indentation character. -/
def indentChars : List Char → List Char
  | [] => []
  | c :: rest =>
    if c = '\n' then '\n' :: '\t' :: indentChars rest
    else c :: indentChars rest

/-- Modelled from the spec: the claim that a Fail diagnostic for an
unexpected stage failure is the stage's standard-error text "with embedded
newlines indented for readability" — each newline is followed by an
indentation character.  The code does no such indentation; this definition
exists only to compare the spec's words with the code's behaviour. -/
def specIndentedStderr (s : String) : String := ⟨indentChars s.data⟩

/-! ### Substring helper lemmas -/

theorem within_append_left {α : Type} {l a : List α} (b : List α) (h : l <:+: a) :
    l <:+: a ++ b := by
  obtain ⟨s, t, rfl⟩ := h
  exact ⟨s, t ++ b, by simp⟩

theorem within_append_right {α : Type} {l b : List α} (a : List α) (h : l <:+: b) :
    l <:+: a ++ b := by
  obtain ⟨s, t, rfl⟩ := h
  exact ⟨a ++ s, t, by simp⟩

theorem strContains_iff (s m : String) : strContains s m = true ↔ m.data <:+: s.data := by
  simp [strContains]

theorem allContained_iff (st : String) (msgs : List String) :
    (msgs.all fun m => strContains st m) = true ↔ ∀ m ∈ msgs, m.data <:+: st.data := by
  simp [List.all_eq_true, strContains]

/-- Appending tagged entries on the right of a fold keeps any substring of
the accumulator a substring of the result. -/
theorem foldl_tag_keeps (pre post : String) :
    ∀ (rest : List String) (acc : String) (l : List Char), l <:+: acc.data →
      l <:+: (rest.foldl (fun acc m => acc ++ pre ++ m ++ post) acc).data := by
  intro rest
  induction rest with
  | nil => intro acc l h; simpa using h
  | cons m ms ih =>
    intro acc l h
    simp only [List.foldl_cons]
    apply ih
    show l <:+: acc.data ++ pre.data ++ m.data ++ post.data
    exact within_append_left _ (within_append_left _ (within_append_left _ h))

/-- Every entry folded into a tagged fold is a substring of the result. -/
theorem foldl_tag_mem (pre post : String) :
    ∀ (rest : List String) (acc : String) (m : String), m ∈ rest →
      m.data <:+: (rest.foldl (fun acc m => acc ++ pre ++ m ++ post) acc).data := by
  intro rest
  induction rest with
  | nil => intro acc m hm; cases hm
  | cons m0 ms ih =>
    intro acc m hm
    simp only [List.foldl_cons]
    rcases List.mem_cons.mp hm with rfl | hm'
    · apply foldl_tag_keeps
      show m.data <:+: acc.data ++ pre.data ++ m.data ++ post.data
      exact within_append_left _ ⟨acc.data ++ pre.data, [], by simp⟩
    · exact ih _ _ hm'

/-! ### Parser lemmas -/

theorem splitOnChar_ne_nil (c : Char) (l : List Char) : splitOnChar c l ≠ [] := by
  cases l with
  | nil => simp [splitOnChar]
  | cons x xs => unfold splitOnChar; split <;> split <;> simp

theorem chopQuoteBack_eq_some {l b : List Char} (h : chopQuoteBack l = some b) :
    b = l.dropLast := by
  unfold chopQuoteBack at h
  split at h
  next c rest hrev =>
    split at h
    · injection h with h'
      have hl : l = rest.reverse ++ [c] := by
        have h2 := congrArg List.reverse hrev
        simpa using h2
      rw [hl, ← h']
      simp
    · cases h
  next hrev => cases h

theorem parseOneMessage_ok_of_quoted {p : List Char}
    (h : properlyQuoted (trimChars p) = true) :
    parseOneMessage p = .ok (unquoteMsg (trimChars p)) := by
  cases htc : trimChars p with
  | nil => simp [properlyQuoted, htc] at h
  | cons c t1 =>
    simp [properlyQuoted, htc] at h
    obtain ⟨hc, hq⟩ := h
    cases hqb : chopQuoteBack t1 with
    | none => rw [hqb] at hq; cases hq
    | some body =>
      have hb := chopQuoteBack_eq_some hqb
      simp [parseOneMessage, htc, hc, hqb, unquoteMsg, hb]

theorem parseOneMessage_error_of_bad {p : List Char}
    (h : properlyQuoted (trimChars p) = false) :
    ∃ e, parseOneMessage p = .error e := by
  cases htc : trimChars p with
  | nil => exact ⟨"\" prefix not found", by simp [parseOneMessage, htc]⟩
  | cons c t1 =>
    by_cases hc : c = '"'
    · cases hqb : chopQuoteBack t1 with
      | some b => exfalso; simp [properlyQuoted, htc, hc, hqb] at h
      | none => exact ⟨"\" suffix not found", by simp [parseOneMessage, htc, hc, hqb]⟩
    · exact ⟨"\" prefix not found", by simp [parseOneMessage, htc, hc]⟩

theorem parseMessages_ok_of_quoted :
    ∀ pieces : List (List Char), (∀ p ∈ pieces, properlyQuoted (trimChars p) = true) →
      parseMessages pieces = .ok (pieces.map fun p => (⟨unquoteMsg (trimChars p)⟩ : String)) := by
  intro pieces
  induction pieces with
  | nil => intro _; rfl
  | cons p ps ih =>
    intro h
    have h1 := parseOneMessage_ok_of_quoted (h p (List.mem_cons_self p ps))
    have h2 := ih fun q hq => h q (List.mem_cons_of_mem p hq)
    simp [parseMessages, h1, h2]

theorem parseMessages_error_of_bad :
    ∀ pieces : List (List Char), (∃ p ∈ pieces, properlyQuoted (trimChars p) = false) →
      ∃ e, parseMessages pieces = .error e := by
  intro pieces
  induction pieces with
  | nil => rintro ⟨p, hp, -⟩; cases hp
  | cons p ps ih =>
    rintro ⟨q, hq, hbad⟩
    rcases List.mem_cons.mp hq with rfl | hq'
    · obtain ⟨e, he⟩ := parseOneMessage_error_of_bad hbad
      exact ⟨e, by simp [parseMessages, he]⟩
    · cases hp : parseOneMessage p with
      | error e => exact ⟨e, by simp [parseMessages, hp]⟩
      | ok body =>
        obtain ⟨e, he⟩ := ih ⟨q, hq', hbad⟩
        exact ⟨e, by simp [parseMessages, hp, he]⟩

theorem parseMessages_length :
    ∀ (pieces : List (List Char)) (ms : List String), parseMessages pieces = .ok ms →
      ms.length = pieces.length := by
  intro pieces
  induction pieces with
  | nil =>
    intro ms h
    simp [parseMessages] at h
    simp [← h]
  | cons p ps ih =>
    intro ms h
    cases hp : parseOneMessage p with
    | error e => simp [parseMessages, hp] at h
    | ok body =>
      cases hps : parseMessages ps with
      | error e => simp [parseMessages, hp, hps] at h
      | ok ms' =>
        simp [parseMessages, hp, hps] at h
        rw [← h]
        simp [ih ms' hps]

/-- Inversion: a `Failure` expectation can only come out of the
message-parsing loop, applied to the (never empty) comma-split of the
directive's right-hand side. -/
theorem aborted_inv {input_file : String} {ms : List String}
    (h : determine_expected_outcome input_file = .ok (.Aborted ms)) :
    ∃ pieces : List (List Char), pieces ≠ [] ∧ parseMessages pieces = .ok ms := by
  unfold determine_expected_outcome at h
  split at h
  · split at h
    next lhs rhs rest heq =>
      split at h
      · split at h
        next mv hpm =>
          refine ⟨splitOnChar ',' (trimChars rhs), splitOnChar_ne_nil _ _, ?_⟩
          rw [hpm]
          injection h with h'
          injection h' with h''
          rw [h'']
        next e hpm => cases h
      · simp at h
    next heq => simp at h
  · simp at h

/-! ### Evaluator lemmas -/

theorem validate_ok_iff (st : String) (msgs : List String) :
    validate_error_messages st msgs = some (.ok ()) ↔ ∀ m ∈ msgs, m.data <:+: st.data := by
  constructor
  · intro h
    by_cases hb : (msgs.all fun m => strContains st m) = true
    · exact (allContained_iff st msgs).mp hb
    · exfalso
      unfold validate_error_messages at h
      rw [if_neg hb] at h
      cases msgs with
      | nil => exact hb rfl
      | cons m0 rest => simp at h
  · intro h
    unfold validate_error_messages
    rw [if_pos ((allContained_iff st msgs).mpr h)]

theorem validate_fail (st : String) (msgs : List String)
    (h : ¬ ∀ m ∈ msgs, m.data <:+: st.data) :
    ∃ m0 rest, msgs = m0 :: rest ∧
      validate_error_messages st msgs = some (.error (mismatchDiagnostic st m0 rest)) := by
  have hb : ¬ (msgs.all fun m => strContains st m) = true :=
    fun hb => h ((allContained_iff st msgs).mp hb)
  cases msgs with
  | nil => exact absurd (by intro m hm; cases hm) h
  | cons m0 rest =>
    refine ⟨m0, rest, rfl, ?_⟩
    unfold validate_error_messages
    rw [if_neg hb]

theorem validate_isSome (st : String) (msgs : List String) :
    (validate_error_messages st msgs).isSome = true := by
  unfold validate_error_messages
  by_cases hb : (msgs.all fun m => strContains st m) = true
  · rw [if_pos hb]; rfl
  · rw [if_neg hb]
    cases msgs with
    | nil => exact absurd rfl hb
    | cons m0 rest => rfl

theorem eval_aborted_pass_iff (st : String) (msgs : List String) :
    evaluate_on_failure st (.Aborted msgs) = some .Success ↔
      ∀ m ∈ msgs, m.data <:+: st.data := by
  constructor
  · intro h
    by_contra hc
    obtain ⟨m0, rest, hm, hv⟩ := validate_fail st msgs hc
    rw [hm] at h hv
    simp [evaluate_on_failure, hv] at h
  · intro h
    have hv : validate_error_messages st msgs = some (.ok ()) := (validate_ok_iff st msgs).mpr h
    simp [evaluate_on_failure, hv]

theorem eval_aborted_fail (st : String) (msgs : List String)
    (h : ¬ ∀ m ∈ msgs, m.data <:+: st.data) :
    ∃ m0 rest, msgs = m0 :: rest ∧
      evaluate_on_failure st (.Aborted msgs) =
        some (.Failure (mismatchDiagnostic st m0 rest)) := by
  obtain ⟨m0, rest, hm, hv⟩ := validate_fail st msgs h
  exact ⟨m0, rest, hm, by rw [hm]; rw [hm] at hv; simp [evaluate_on_failure, hv]⟩

/-! ### Diagnostic-content lemmas -/

theorem finishedDiagnostic_mem (msgs : List String) :
    ∀ m ∈ msgs, m.data <:+: (finishedDiagnostic msgs).data :=
  fun m hm => foldl_tag_mem "\t\t\"" "\"" msgs _ m hm

theorem finishedDiagnostic_header (msgs : List String) :
    ("\ttest execution finished, but the following error messages were expected:" :
        String).data <:+: (finishedDiagnostic msgs).data :=
  foldl_tag_keeps "\t\t\"" "\"" msgs _ _ ⟨[], [], by simp⟩

theorem mismatchDiagnostic_mem (st m0 : String) (rest : List String) :
    ∀ m ∈ m0 :: rest, m.data <:+: (mismatchDiagnostic st m0 rest).data := by
  intro m hm
  have step : ∀ l : List Char,
      l <:+: ((rest.foldl (fun acc m => acc ++ "\t          and \"" ++ m ++ "\"")
        ("\ttest aborted as expected, but with wrong error message:\n\texpected: \""
          ++ m0 ++ "\"")).data) →
      l <:+: (mismatchDiagnostic st m0 rest).data := by
    intro l h
    show l <:+: _ ++ "\t     got: \"".data ++ (trimS st).data ++ "\"".data
    exact within_append_left _ (within_append_left _ (within_append_left _ h))
  rcases List.mem_cons.mp hm with rfl | hm'
  · apply step
    apply foldl_tag_keeps
    show m.data <:+:
      ("\ttest aborted as expected, but with wrong error message:\n\texpected: \"" :
        String).data ++ m.data ++ "\"".data
    exact ⟨_, _, rfl⟩
  · exact step _ (foldl_tag_mem "\t          and \"" "\"" rest _ m hm')

theorem within_append_self_right {α : Type} (a l : List α) : l <:+: a ++ l :=
  ⟨a, [], by simp⟩

theorem mismatchDiagnostic_got (st m0 : String) (rest : List String) :
    (trimS st).data <:+: (mismatchDiagnostic st m0 rest).data := by
  show (trimS st).data <:+: _ ++ "\t     got: \"".data ++ (trimS st).data ++ "\"".data
  exact within_append_left _ (within_append_self_right _ _)

/-! ### Aggregation lemmas -/

theorem foldl_runStep_ok :
    ∀ (tests : List TestSpec) (r f : Nat),
      (∀ t ∈ tests, ∃ k, run_one t = .ok (some k)) →
      List.foldl runStep (some (r, f)) tests
        = some (r + tests.length, f + tests.countP counts_as_failed) := by
  intro tests
  induction tests with
  | nil => intro r f _; simp
  | cons t ts ih =>
    intro r f h
    obtain ⟨k, hk⟩ := h t (List.mem_cons_self t ts)
    have hstep : runStep (some (r, f)) t
        = some (r + 1, f + if counts_as_failed t then 1 else 0) := by
      unfold runStep counts_as_failed
      rw [hk]
      cases k with
      | Success => simp
      | Failure msg => simp
    simp only [List.foldl_cons, hstep]
    rw [ih _ _ fun t' ht' => h t' (List.mem_cons_of_mem t ht')]
    rw [List.countP_cons]
    cases hct : counts_as_failed t <;> simp [hct] <;> omega

/-! ### Reduction lemmas for `run_test` -/

theorem run_test_compiler_failed (expected_outcome : TestOutcome)
    (command_result : Output) (backseater_of : List Nat → Output)
    (h : command_result.status_success = false) :
    run_test expected_outcome command_result backseater_of
      = evaluate_on_failure command_result.stderr expected_outcome := by
  simp [run_test, h]

theorem run_test_vm_failed (expected_outcome : TestOutcome)
    (command_result : Output) (backseater_of : List Nat → Output)
    (h1 : command_result.status_success = true)
    (h2 : (backseater_of command_result.stdout).status_success = false) :
    run_test expected_outcome command_result backseater_of
      = evaluate_on_failure (backseater_of command_result.stdout).stderr expected_outcome := by
  simp [run_test, h1, h2]

/-- The two C1 properties of the evaluator on a failing stage with a
`Failure` expectation, stated over the failing stage's stderr text. -/
theorem eval_aborted_claims (st : String) (required : List String) :
    (evaluate_on_failure st (.Aborted required) = some .Success ↔
      ∀ m ∈ required, m.data <:+: st.data)
    ∧ (¬ (∀ m ∈ required, m.data <:+: st.data) →
        ∃ d, evaluate_on_failure st (.Aborted required) = some (.Failure d) ∧
          (∀ m ∈ required, m.data <:+: d.data) ∧ (trimS st).data <:+: d.data) := by
  refine ⟨eval_aborted_pass_iff st required, ?_⟩
  intro h
  obtain ⟨m0, rest, hm, he⟩ := eval_aborted_fail st required h
  subst hm
  exact ⟨mismatchDiagnostic st m0 rest, he, mismatchDiagnostic_mem st m0 rest,
    mismatchDiagnostic_got st m0 rest⟩

/-- A `Failure` expectation produced by the parser carries at least one
message (the comma-split of the right-hand side is never empty and the
message loop preserves length). -/
theorem aborted_ne_nil {input_file : String} {ms : List String}
    (h : determine_expected_outcome input_file = .ok (.Aborted ms)) : ms ≠ [] := by
  obtain ⟨pieces, hne, hp⟩ := aborted_inv h
  have hlen := parseMessages_length pieces ms hp
  intro hnil
  rw [hnil] at hlen
  exact hne (List.eq_nil_of_length_eq_zero hlen.symm)

/-! ### Claim theorems -/

/-- C1: for a pipeline run that failed at some stage (compiler or virtual
machine) with a declared `Failure{required}` expectation, the evaluator
returns Pass if and only if the failing stage's captured standard-error
text contains every string of `required` as a substring; when some string
is missing it returns Fail with a diagnostic that lists every expected
string and the (trimmed) actual captured text. -/
theorem C1_failing_stage_aborted_expectation (required : List String)
    (command_result : Output) (backseater_of : List Nat → Output) :
    (command_result.status_success = false →
      ((run_test (.Aborted required) command_result backseater_of = some .Success ↔
          ∀ m ∈ required, m.data <:+: command_result.stderr.data)
        ∧ (¬ (∀ m ∈ required, m.data <:+: command_result.stderr.data) →
            ∃ d, run_test (.Aborted required) command_result backseater_of
                = some (.Failure d)
              ∧ (∀ m ∈ required, m.data <:+: d.data)
              ∧ (trimS command_result.stderr).data <:+: d.data)))
    ∧ (command_result.status_success = true →
        (backseater_of command_result.stdout).status_success = false →
        ((run_test (.Aborted required) command_result backseater_of = some .Success ↔
            ∀ m ∈ required,
              m.data <:+: (backseater_of command_result.stdout).stderr.data)
          ∧ (¬ (∀ m ∈ required,
                m.data <:+: (backseater_of command_result.stdout).stderr.data) →
              ∃ d, run_test (.Aborted required) command_result backseater_of
                  = some (.Failure d)
                ∧ (∀ m ∈ required, m.data <:+: d.data)
                ∧ (trimS (backseater_of command_result.stdout).stderr).data <:+: d.data))) := by
  constructor
  · intro h
    rw [run_test_compiler_failed _ _ _ h]
    exact eval_aborted_claims _ required
  · intro h1 h2
    rw [run_test_vm_failed _ _ _ h1 h2]
    exact eval_aborted_claims _ required

/-- C1 witness: a compiler failure whose stderr contains the single
required string evaluates to Pass. -/
theorem C1_witness :
    run_test (.Aborted ["b"]) ⟨false, [], "abc"⟩ (fun _ => ⟨true, [], ""⟩)
      = some .Success :=
  ((C1_failing_stage_aborted_expectation ["b"] ⟨false, [], "abc"⟩
      (fun _ => ⟨true, [], ""⟩)).1 rfl).1.mpr (by decide)

/-- C2 (code evaluation at the failing input): a malformed directive
(`// fails_with = division by zero`, missing quotes) makes the per-test
closure return an error, which the `for_each` aggregation turns into
`panic!()`: the whole run aborts (`none`) and the other, healthy test's
result is lost, instead of the malformed test being recorded as a single
Fail.  The same healthy test alone yields a completed run. -/
theorem C2_parse_error_aborts_run :
    determine_expected_outcome "// fails_with = division by zero"
        = .error "\" prefix not found"
    ∧ run_all [⟨"x = 1", ⟨true, [], ""⟩, fun _ => ⟨true, [], ""⟩⟩,
        ⟨"// fails_with = division by zero", ⟨true, [], ""⟩, fun _ => ⟨true, [], ""⟩⟩]
        = none
    ∧ run_all [⟨"x = 1", ⟨true, [], ""⟩, fun _ => ⟨true, [], ""⟩⟩] = some (1, 0) :=
  ⟨rfl, rfl, rfl⟩

/-- C3 (counterexample): a stage failure under a `Success` expectation
yields the captured stderr verbatim as the diagnostic; embedded newlines
are not indented, contradicting the claim's indentation clause. -/
theorem C3_counterexample :
    run_test .Finished ⟨false, [], "a\nb"⟩ (fun _ => ⟨true, [], ""⟩)
        = some (.Failure "a\nb")
    ∧ specIndentedStderr "a\nb" = "a\n\tb"
    ∧ ("a\nb" : String) ≠ "a\n\tb" :=
  ⟨rfl, rfl, by decide⟩

/-- C3 (amended): for every pipeline run that failed at some stage while
the expectation is `Success`, the evaluator returns Fail and the
diagnostic equals that stage's captured standard-error text verbatim. -/
theorem C3_success_expected_fail_diagnostic (command_result : Output)
    (backseater_of : List Nat → Output) :
    (command_result.status_success = false →
      run_test .Finished command_result backseater_of
        = some (.Failure command_result.stderr))
    ∧ (command_result.status_success = true →
        (backseater_of command_result.stdout).status_success = false →
        run_test .Finished command_result backseater_of
          = some (.Failure (backseater_of command_result.stdout).stderr)) := by
  constructor
  · intro h; rw [run_test_compiler_failed _ _ _ h]; rfl
  · intro h1 h2; rw [run_test_vm_failed _ _ _ h1 h2]; rfl

/-- C3 witness: a concrete compiler failure with `Success` expected is a
Fail whose diagnostic is the raw stderr. -/
theorem C3_witness :
    run_test .Finished ⟨false, [], "boom"⟩ (fun _ => ⟨true, [], ""⟩)
      = some (.Failure "boom") :=
  (C3_success_expected_fail_diagnostic ⟨false, [], "boom"⟩ (fun _ => ⟨true, [], ""⟩)).1 rfl

/-- C4 (counterexample): the first line `// fails_with = missing quotes`
begins with the comment marker and does not match the quoted-message
pattern, yet the parser returns a parse error rather than the `Success`
expectation the claim requires. -/
theorem C4_counterexample :
    ("//".data).isPrefixOf (first_line_of "// fails_with = missing quotes\nbody") = true
    ∧ determine_expected_outcome "// fails_with = missing quotes\nbody"
        = .error "\" prefix not found"
    ∧ determine_expected_outcome "// fails_with = missing quotes\nbody"
        ≠ .ok .Finished := by
  refine ⟨rfl, rfl, ?_⟩
  intro h
  rw [show determine_expected_outcome "// fails_with = missing quotes\nbody"
      = .error "\" prefix not found" from rfl] at h
  exact Except.noConfusion h

/-- C4 (amended): a first line not starting with `//`, or starting with it
but not splitting on `=` into a `fails_with` left-hand side and a
right-hand side, parses to `Success`; a `fails_with` directive whose
comma-separated messages are all properly quoted parses to `Failure` with
the quoted messages in declaration order (improper quoting is instead a
parse error, per C5). -/
theorem C4_first_line_parsing (input_file : String) :
    (("//".data).isPrefixOf (first_line_of input_file) = false →
      determine_expected_outcome input_file = .ok .Finished)
    ∧ (∀ single, ("//".data).isPrefixOf (first_line_of input_file) = true →
        splitOnChar '=' (test_runner_command_of input_file) = [single] →
        determine_expected_outcome input_file = .ok .Finished)
    ∧ (∀ lhs rhs rest, ("//".data).isPrefixOf (first_line_of input_file) = true →
        splitOnChar '=' (test_runner_command_of input_file) = lhs :: rhs :: rest →
        trimChars lhs ≠ "fails_with".data →
        determine_expected_outcome input_file = .ok .Finished)
    ∧ (∀ lhs rhs rest, ("//".data).isPrefixOf (first_line_of input_file) = true →
        splitOnChar '=' (test_runner_command_of input_file) = lhs :: rhs :: rest →
        trimChars lhs = "fails_with".data →
        (∀ p ∈ splitOnChar ',' (trimChars rhs), properlyQuoted (trimChars p) = true) →
        determine_expected_outcome input_file
          = .ok (.Aborted ((splitOnChar ',' (trimChars rhs)).map
              fun p => (⟨unquoteMsg (trimChars p)⟩ : String)))) := by
  refine ⟨?_, ?_, ?_, ?_⟩
  · intro h; simp [determine_expected_outcome, h]
  · intro single h hs; simp [determine_expected_outcome, h, hs]
  · intro lhs rhs rest h hs hl; simp [determine_expected_outcome, h, hs, hl]
  · intro lhs rhs rest h hs hl hq
    have hpm := parseMessages_ok_of_quoted _ hq
    simp [determine_expected_outcome, h, hs, hl, hpm]

/-- C4 witness: a directive-less file parses to `Success`; a well-quoted
two-message directive parses to `Failure` with both messages in order. -/
theorem C4_witness :
    determine_expected_outcome "plain body" = .ok .Finished
    ∧ determine_expected_outcome "// fails_with = \"ab\", \"cd\"\nrest"
        = .ok (.Aborted ["ab", "cd"]) := by
  constructor
  · exact (C4_first_line_parsing "plain body").1 (by decide)
  · exact (C4_first_line_parsing "// fails_with = \"ab\", \"cd\"\nrest").2.2.2
      "fails_with ".data " \"ab\", \"cd\"".data [] (by decide) (by decide)
      (by decide) (by decide)

/-- C5: in a first line of the form `// fails_with = <rhs>`, a
comma-separated message that lacks its opening or its closing double quote
makes the parser return a parse error rather than an expectation. -/
theorem C5_malformed_quote_parse_error (input_file : String)
    (lhs rhs : List Char) (rest : List (List Char))
    (h0 : ("//".data).isPrefixOf (first_line_of input_file) = true)
    (h1 : splitOnChar '=' (test_runner_command_of input_file) = lhs :: rhs :: rest)
    (h2 : trimChars lhs = "fails_with".data)
    (h3 : ∃ p ∈ splitOnChar ',' (trimChars rhs), properlyQuoted (trimChars p) = false) :
    ∃ e, determine_expected_outcome input_file = .error e := by
  obtain ⟨e, he⟩ := parseMessages_error_of_bad _ h3
  exact ⟨e, by simp [determine_expected_outcome, h0, h1, h2, he]⟩

/-- C5 witness: `// fails_with = oops` (no quotes at all) is a parse
error. -/
theorem C5_witness :
    ∃ e, determine_expected_outcome "// fails_with = oops" = .error e :=
  C5_malformed_quote_parse_error "// fails_with = oops" "fails_with ".data " oops".data []
    (by decide) (by decide) (by decide) ⟨"oops".data, by decide, by decide⟩

/-- C6: when every stage succeeded but a `Failure` expectation was
declared, the evaluator returns Fail, with a diagnostic stating that
execution finished although the listed error messages were expected. -/
theorem C6_finished_but_failure_expected (required : List String)
    (command_result : Output) (backseater_of : List Nat → Output)
    (h1 : command_result.status_success = true)
    (h2 : (backseater_of command_result.stdout).status_success = true) :
    run_test (.Aborted required) command_result backseater_of
        = some (.Failure (finishedDiagnostic required))
    ∧ ("\ttest execution finished, but the following error messages were expected:" :
        String).data <:+: (finishedDiagnostic required).data
    ∧ ∀ m ∈ required, m.data <:+: (finishedDiagnostic required).data := by
  refine ⟨?_, finishedDiagnostic_header required, finishedDiagnostic_mem required⟩
  simp [run_test, h1, h2]

/-- C6 witness: a fully successful pipeline with one declared error
message is a Fail with the finished-diagnostic. -/
theorem C6_witness :
    run_test (.Aborted ["x"]) ⟨true, [], ""⟩ (fun _ => ⟨true, [], ""⟩)
      = some (.Failure (finishedDiagnostic ["x"])) :=
  (C6_finished_but_failure_expected ["x"] ⟨true, [], ""⟩ (fun _ => ⟨true, [], ""⟩)
    rfl rfl).1

/-- C7: when the first stage (compiler) fails, the second stage (virtual
machine) is never invoked — the result does not depend on the virtual
machine's behaviour at all — and the outcome is determined solely by the
failing stage's result. -/
theorem C7_first_failure_stops_pipeline (expected_outcome : TestOutcome)
    (command_result : Output) (b1 b2 : List Nat → Output)
    (h : command_result.status_success = false) :
    run_test expected_outcome command_result b1
        = run_test expected_outcome command_result b2
    ∧ run_test expected_outcome command_result b1
        = evaluate_on_failure command_result.stderr expected_outcome := by
  rw [run_test_compiler_failed _ _ _ h, run_test_compiler_failed _ _ _ h]
  exact ⟨rfl, rfl⟩

/-- C7 witness: with a failing compiler, two runs differing only in the
virtual machine's behaviour produce the same result. -/
theorem C7_witness :
    run_test .Finished ⟨false, [], "e"⟩ (fun _ => ⟨true, [], "vm1"⟩)
      = run_test .Finished ⟨false, [], "e"⟩ (fun _ => ⟨false, [], "vm2"⟩) :=
  (C7_first_failure_stops_pipeline .Finished ⟨false, [], "e"⟩
    (fun _ => ⟨true, [], "vm1"⟩) (fun _ => ⟨false, [], "vm2"⟩) rfl).1

/-- C8: when every test case completes, `tests_run` equals the number of
discovered tests, `tests_failed` equals the number of Fail results (and
never exceeds `tests_run`), the final line is the literal
`Tests run: <n>, Tests successful: <n>, Tests failed: <n>` with
successful = run - failed, and the process exits successfully iff no test
failed. -/
theorem C8_run_summary_invariants (tests : List TestSpec)
    (h : ∀ t ∈ tests, ∃ k, run_one t = .ok (some k)) :
    run_all tests = some (tests.length, tests.countP counts_as_failed)
    ∧ tests.countP counts_as_failed ≤ tests.length
    ∧ run_harness tests = some (tests.length, tests.countP counts_as_failed,
        "Tests run: " ++ toString tests.length ++ ", Tests successful: "
          ++ toString (tests.length - tests.countP counts_as_failed)
          ++ ", Tests failed: " ++ toString (tests.countP counts_as_failed) ++ "\n",
        (tests.countP counts_as_failed == 0))
    ∧ (((tests.countP counts_as_failed == 0) = false) ↔
        tests.countP counts_as_failed ≠ 0) := by
  have h1 : run_all tests = some (tests.length, tests.countP counts_as_failed) := by
    have h2 := foldl_runStep_ok tests 0 0 h
    simpa [run_all] using h2
  refine ⟨h1, List.countP_le_length _, ?_, ?_⟩
  · simp [run_harness, h1, summaryLine]
  · simp

/-- C8 witness: a run of one passing and one failing test counts two run,
one failed. -/
theorem C8_witness :
    run_all [(⟨"ok body", ⟨true, [], ""⟩, fun _ => ⟨true, [], ""⟩⟩ : TestSpec),
      ⟨"ok body", ⟨false, [], "err"⟩, fun _ => ⟨true, [], ""⟩⟩] = some (2, 1) := by
  have h : ∀ t ∈ [(⟨"ok body", ⟨true, [], ""⟩, fun _ => ⟨true, [], ""⟩⟩ : TestSpec),
      ⟨"ok body", ⟨false, [], "err"⟩, fun _ => ⟨true, [], ""⟩⟩],
      ∃ k, run_one t = .ok (some k) := by
    intro t ht
    rcases List.mem_cons.mp ht with rfl | ht'
    · exact ⟨.Success, rfl⟩
    rcases List.mem_cons.mp ht' with rfl | ht''
    · exact ⟨.Failure "err", rfl⟩
    · cases ht''
  exact (C8_run_summary_invariants _ h).1

/-- C9 (counterexample): the directive `// fails_with = ""` parses to a
`Failure` expectation whose required list holds the empty string,
contradicting the claim that every required string is non-empty. -/
theorem C9_counterexample :
    determine_expected_outcome "// fails_with = \"\"" = .ok (.Aborted [""])
    ∧ ("" : String).data.length = 0 :=
  ⟨rfl, rfl⟩

/-- C9 (amended): every `Failure` expectation the parser produces carries
a list with at least one required string; the strings themselves may be
empty. -/
theorem C9_aborted_list_ne_nil (input_file : String) (ms : List String)
    (h : determine_expected_outcome input_file = .ok (.Aborted ms)) : ms ≠ [] :=
  aborted_ne_nil h

/-- C9 witness: the single-message directive yields a one-element list. -/
theorem C9_witness : (["a"] : List String) ≠ [] :=
  C9_aborted_list_ne_nil "// fails_with = \"a\"" ["a"] rfl

/-- C10: a parser-produced `Failure` expectation always carries a
non-empty message list, so building the mismatch diagnostic — which reads
`error_messages[0]` — never hits the empty-slice panic: the evaluator is
total there. -/
theorem C10_first_message_access_safe (input_file : String) (ms : List String)
    (stderr_string : String)
    (h : determine_expected_outcome input_file = .ok (.Aborted ms)) :
    ms ≠ [] ∧ (validate_error_messages stderr_string ms).isSome = true :=
  ⟨aborted_ne_nil h, validate_isSome stderr_string ms⟩

/-- C10 witness: applying the safety theorem at a concrete directive and a
concrete stderr. -/
theorem C10_witness :
    (["q"] : List String) ≠ []
    ∧ (validate_error_messages "zzz" ["q"]).isSome = true :=
  C10_first_message_access_safe "// fails_with = \"q\"" ["q"] "zzz" rfl

end TestRunner
